import Mathlib

/-!
Shallow embedding of the offline-first synchronization core of
attendify-sync-scribe.

The embedded code lives in two service generations found in the repository:

* `Attendify.Db` — the `DbService` defined in `src/services/firebase.service.ts`
  (second half of the file): raw IndexedDB with a `syncQueue` object store, a
  `SyncInfo` publisher, and `syncWithServer`.
* `Attendify.Idb` — the `DbService` of the unnamed source file (`src/unnamed/part_006`,
  an `idb`-based `db.service.ts`): no sync queue; every CRUD call awaits a
  per-collection diff-and-push against the Firebase remote adapter.
* `Attendify.FirebaseConn` / `Attendify.subscribeToConnectionStatus` — the
  connection-status part of `FirebaseService` (first half of
  `src/services/firebase.service.ts`).

Timestamps are modelled as `Nat` (ISO-8601 strings compare consistently with
time, so `new Date().toISOString()` becomes a monotone `Nat` clock value that
each operation receives as an argument).  Fallible storage transactions and
remote calls are modelled by explicit `Bool` parameters (`txOk`, `remoteOk`,
`pushOk`): the embedding of an operation returns the operation's result
(`Except`) together with the durable state after the call, so a failed
transaction returning the unchanged state is an explicit, provable fact.
JavaScript objects that lack a field at runtime (a spread that drops
`createdAt`) are modelled by `Option` in the record type, `none` meaning the
field is absent.
-/

namespace Attendify

/-- Timestamps: `new Date().toISOString()` modelled as a `Nat` clock value. -/
abbrev Timestamp := Nat

/-- ConnectionStatus from `src/types/index.ts`. -/
inductive ConnStatus
  | online
  | offline
deriving DecidableEq, Repr

/-- SyncInfo from `src/types/index.ts`: `lastSync` nullable, `status`, `pendingChanges`. -/
structure SyncInfo where
  lastSync : Option Timestamp
  status : ConnStatus
  pendingChanges : Nat
deriving DecidableEq, Repr

/-- Class from `src/types/index.ts`.  `createdAt` is `Option` because the
runtime object produced by `DbService.updateClass` in `firebase.service.ts`
spreads an `Omit<Class, 'createdAt'>` value and therefore can lack the field
(`none` = absent at runtime). -/
structure Class where
  id : String
  name : String
  grade : Option String
  servants : List String
  createdAt : Option Timestamp
  updatedAt : Timestamp
deriving DecidableEq, Repr

/-- FieldType from `src/types/index.ts`. -/
inductive FieldType
  | text
  | number
  | select
  | phone
deriving DecidableEq, Repr

/-- CustomField from `src/types/index.ts`. -/
structure CustomField where
  id : String
  name : String
  type : FieldType
  required : Bool
  options : Option (List String)
deriving DecidableEq, Repr

/-- Event from `src/types/index.ts`. -/
structure Event where
  id : String
  name : String
  date : String
  location : Option String
  description : Option String
  customFields : List CustomField
  createdAt : Option Timestamp
  updatedAt : Timestamp
deriving DecidableEq, Repr

/-- The `string | number` value of an attendee custom-field entry. -/
inductive FieldValue
  | str (s : String)
  | num (n : Int)
deriving DecidableEq, Repr

/-- AttendeeValue from `src/types/index.ts`. -/
structure AttendeeValue where
  fieldId : String
  value : FieldValue
deriving DecidableEq, Repr

/-- Attendee from `src/types/index.ts`. -/
structure Attendee where
  id : String
  eventId : String
  classId : String
  values : List AttendeeValue
  attended : Bool
  createdAt : Option Timestamp
  updatedAt : Timestamp
deriving DecidableEq, Repr

/-- Records stored in an IndexedDB object store with `keyPath: 'id'`. -/
class KeyedRec (α : Type) where
  key : α → String

instance : KeyedRec Class := ⟨Class.id⟩

instance : KeyedRec Event := ⟨Event.id⟩

instance : KeyedRec Attendee := ⟨Attendee.id⟩

/-- IndexedDB `store.get(id)`: the record with the given key, if any. -/
def getById {α : Type} [KeyedRec α] (l : List α) (i : String) : Option α :=
  l.find? (fun x => decide (KeyedRec.key x = i))

/-- IndexedDB `store.put(record)`: insert-or-replace by key. -/
def putById {α : Type} [KeyedRec α] (l : List α) (a : α) : List α :=
  if (getById l (KeyedRec.key a)).isSome then
    l.map (fun x => if KeyedRec.key x = KeyedRec.key a then a else x)
  else l ++ [a]

/-- IndexedDB `store.delete(id)`: removes the record with the key if present;
succeeds (as a no-op) when the key is absent. -/
def deleteById {α : Type} [KeyedRec α] (l : List α) (i : String) : List α :=
  l.filter (fun x => decide (KeyedRec.key x ≠ i))

/-- IndexedDB `store.add(record)`: insert; errors (aborting the transaction)
when the key already exists. -/
def addById {α : Type} [KeyedRec α] (l : List α) (a : α) : Option (List α) :=
  if (getById l (KeyedRec.key a)).isSome then none else some (l ++ [a])

/-- Payload of a `syncQueue` entry (`data: newClass` etc. in
`firebase.service.ts`): the full affected record. -/
inductive Payload
  | classData (c : Class)
  | eventData (e : Event)
  | attendeeData (a : Attendee)
deriving DecidableEq, Repr

/-- One record of the `syncQueue` object store: `{ type, data, timestamp }`. -/
structure QueueEntry where
  opType : String
  data : Payload
  timestamp : Timestamp
deriving DecidableEq, Repr

/-- Errors surfaced by the `DbService` of `firebase.service.ts`. -/
inductive DbError
  | storageFailure
  | classNotFound
  | attendeeNotFound
deriving DecidableEq, Repr

/-- The argument of `addClass`: `Omit<Class, 'id' | 'createdAt' | 'updatedAt'>`. -/
structure ClassData where
  name : String
  grade : Option String
  servants : List String
deriving DecidableEq, Repr

/-- The argument of `updateClass`: `Omit<Class, 'createdAt'>`. -/
structure ClassUpdateData where
  id : String
  name : String
  grade : Option String
  servants : List String
  updatedAt : Timestamp
deriving DecidableEq, Repr

/-- The argument of `addEvent`: `Omit<Event, 'id' | 'createdAt' | 'updatedAt'>`. -/
structure EventData where
  name : String
  date : String
  location : Option String
  description : Option String
  customFields : List CustomField
deriving DecidableEq, Repr

/-- The argument of `addAttendee`: `Omit<Attendee, 'id' | 'createdAt' | 'updatedAt'>`. -/
structure AttendeeData where
  eventId : String
  classId : String
  values : List AttendeeValue
  attended : Bool
deriving DecidableEq, Repr

/-- The record built by both services' `addClass`:
`{ ...classData, id: <fresh uuid>, createdAt: now, updatedAt: now }`. -/
def newClassOf (classData : ClassData) (newId : String) (now : Timestamp) : Class :=
  { id := newId, name := classData.name, grade := classData.grade,
    servants := classData.servants, createdAt := some now, updatedAt := now }

/-- The record built by `addEvent`. -/
def newEventOf (eventData : EventData) (newId : String) (now : Timestamp) : Event :=
  { id := newId, name := eventData.name, date := eventData.date,
    location := eventData.location, description := eventData.description,
    customFields := eventData.customFields, createdAt := some now, updatedAt := now }

/-- The record built by `addAttendee`. -/
def newAttendeeOf (attendeeData : AttendeeData) (newId : String) (now : Timestamp) :
    Attendee :=
  { id := newId, eventId := attendeeData.eventId, classId := attendeeData.classId,
    values := attendeeData.values, attended := attendeeData.attended,
    createdAt := some now, updatedAt := now }

/-- The record stored by `DbService.updateClass` in `firebase.service.ts`:
`{ ...classData, updatedAt: now }` spread of an `Omit<Class, 'createdAt'>`
value, so the runtime object has no `createdAt` key (`none`). -/
def updatedClassOf (classData : ClassUpdateData) (now : Timestamp) : Class :=
  { id := classData.id, name := classData.name, grade := classData.grade,
    servants := classData.servants, createdAt := none, updatedAt := now }

namespace Db

/-- Durable state of the `DbService` in `firebase.service.ts`: the three record
object stores, the `syncQueue` object store, and the `SyncInfo` persisted to
localStorage via the publisher helpers. -/
structure DbState where
  classes : List Class
  events : List Event
  attendees : List Attendee
  syncQueue : List QueueEntry
  syncInfo : SyncInfo
deriving DecidableEq, Repr

/-- DbService.addClass (`firebase.service.ts`): one readwrite transaction over
`classes` and `syncQueue` that does `store.add(newClass)` plus
`syncStore.add({type, data, timestamp})`; `oncomplete` bumps `pendingChanges`.
`txOk = false` models `transaction.onerror`; the new record carries the fresh
uuid `newId`, `createdAt = updatedAt = now`. -/
def addClass (s : DbState) (classData : ClassData) (newId : String) (now : Timestamp)
    (txOk : Bool) : Except DbError Class × DbState :=
  let newClass : Class := newClassOf classData newId now
  match txOk, addById s.classes newClass with
  | true, some classes1 =>
    (.ok newClass,
      { s with
        classes := classes1,
        syncQueue := s.syncQueue ++
          [{ opType := "addClass", data := .classData newClass, timestamp := now }],
        syncInfo := { s.syncInfo with pendingChanges := s.syncInfo.pendingChanges + 1 } })
  | _, _ => (.error .storageFailure, s)

/-- DbService.addEvent (`firebase.service.ts`): same transaction shape as
`addClass`, over `events` and `syncQueue`. -/
def addEvent (s : DbState) (eventData : EventData) (newId : String) (now : Timestamp)
    (txOk : Bool) : Except DbError Event × DbState :=
  let newEvent : Event := newEventOf eventData newId now
  match txOk, addById s.events newEvent with
  | true, some events1 =>
    (.ok newEvent,
      { s with
        events := events1,
        syncQueue := s.syncQueue ++
          [{ opType := "addEvent", data := .eventData newEvent, timestamp := now }],
        syncInfo := { s.syncInfo with pendingChanges := s.syncInfo.pendingChanges + 1 } })
  | _, _ => (.error .storageFailure, s)

/-- DbService.addAttendee (`firebase.service.ts`): same transaction shape as
`addClass`, over `attendees` and `syncQueue`. -/
def addAttendee (s : DbState) (attendeeData : AttendeeData) (newId : String)
    (now : Timestamp) (txOk : Bool) : Except DbError Attendee × DbState :=
  let newAttendee : Attendee := newAttendeeOf attendeeData newId now
  match txOk, addById s.attendees newAttendee with
  | true, some attendees1 =>
    (.ok newAttendee,
      { s with
        attendees := attendees1,
        syncQueue := s.syncQueue ++
          [{ opType := "addAttendee", data := .attendeeData newAttendee, timestamp := now }],
        syncInfo := { s.syncInfo with pendingChanges := s.syncInfo.pendingChanges + 1 } })
  | _, _ => (.error .storageFailure, s)

/-- DbService.getClass (`firebase.service.ts`): `store.get(id)` with
`request.result || null`. -/
def getClass (s : DbState) (i : String) : Option Class :=
  getById s.classes i

/-- DbService.getAttendee (`firebase.service.ts`). -/
def getAttendee (s : DbState) (i : String) : Option Attendee :=
  getById s.attendees i

/-- DbService.updateClass (`firebase.service.ts`): first checks existence via
`getClass` and rejects with `Error('Class not found')`; otherwise one
transaction doing `store.put(updatedClass)` plus the `syncQueue` append.
The stored record is the spread `{ ...classData, updatedAt: now }` of an
`Omit<Class, 'createdAt'>` value, so its `createdAt` field is absent at
runtime: modelled as `createdAt := none`. -/
def updateClass (s : DbState) (classData : ClassUpdateData) (now : Timestamp)
    (txOk : Bool) : Except DbError Class × DbState :=
  let updatedClass : Class := updatedClassOf classData now
  match getClass s classData.id with
  | none => (.error .classNotFound, s)
  | some _ =>
    if txOk then
      (.ok updatedClass,
        { s with
          classes := putById s.classes updatedClass,
          syncQueue := s.syncQueue ++
            [{ opType := "updateClass", data := .classData updatedClass, timestamp := now }],
          syncInfo := { s.syncInfo with pendingChanges := s.syncInfo.pendingChanges + 1 } })
    else (.error .storageFailure, s)

/-- DbService.updateAttendeeStatus (`firebase.service.ts`): one readwrite
transaction over `attendees` and `syncQueue`; `store.get(attendeeId)` inside
the transaction; on a missing record, the promise rejects with
`Error('Attendee not found')` but the (write-free) transaction still completes
and its `oncomplete` handler bumps `pendingChanges`; on a found record the
handler sets `attended` and `updatedAt`, `store.put`s it and appends the queue
entry. -/
def updateAttendeeStatus (s : DbState) (attendeeId : String) (attended : Bool)
    (now : Timestamp) (txOk : Bool) : Except DbError Attendee × DbState :=
  if txOk then
    match getById s.attendees attendeeId with
    | none =>
      (.error .attendeeNotFound,
        { s with syncInfo := { s.syncInfo with pendingChanges := s.syncInfo.pendingChanges + 1 } })
    | some a =>
      let a1 : Attendee := { a with attended := attended, updatedAt := now }
      (.ok a1,
        { s with
          attendees := putById s.attendees a1,
          syncQueue := s.syncQueue ++
            [{ opType := "updateAttendee", data := .attendeeData a1, timestamp := now }],
          syncInfo := { s.syncInfo with pendingChanges := s.syncInfo.pendingChanges + 1 } })
  else (.error .storageFailure, s)

/-- DbService.syncWithServer (`firebase.service.ts`): returns the state after
the run plus whether a push to the server was attempted.  If offline it
returns immediately; with an empty `syncQueue` it only calls `updateLastSync`;
otherwise it pushes the queued changes (`pushOk` models the awaited push
succeeding) and, only after success, clears the whole `syncQueue`
(`clearSyncQueue`), updates `lastSync` and sets `pendingChanges` to 0.  Any
thrown error is caught and merely logged, leaving the state untouched. -/
def syncWithServer (s : DbState) (now : Timestamp) (online : Bool) (pushOk : Bool) :
    DbState × Bool :=
  if online then
    if s.syncQueue.isEmpty then
      ({ s with syncInfo := { s.syncInfo with lastSync := some now } }, false)
    else if pushOk then
      ({ s with
         syncQueue := [],
         syncInfo := { s.syncInfo with lastSync := some now, pendingChanges := 0 } }, true)
    else (s, true)
  else (s, false)

/-- The CRUD entry point followed by its fire-and-forget sync: `addClass`
resolves and its `oncomplete` handler calls `this.syncWithServer()` without
awaiting it, so the remote push outcome never reaches the caller of
`addClass`. -/
def addClassAndSync (s : DbState) (classData : ClassData) (newId : String)
    (now : Timestamp) (txOk online pushOk : Bool) : Except DbError Class × DbState :=
  match addClass s classData newId now txOk with
  | (.ok c, s1) => (.ok c, (syncWithServer s1 now online pushOk).1)
  | (.error e, s1) => (.error e, s1)

end Db

namespace Db

/-- Observable state of the sync-status publisher inside `DbService`
(`firebase.service.ts`): the in-memory `currentSyncInfo`, the `syncCallbacks`
array (callbacks modelled by numeric identity), and the chronological log of
callback invocations `(callback, delivered value)`. -/
structure Publisher where
  current : SyncInfo
  subscribers : List Nat
  delivered : List (Nat × SyncInfo)
deriving DecidableEq, Repr

/-- DbService.notifySyncCallbacks: invokes every registered callback with a
copy of `currentSyncInfo`. -/
def notifySyncCallbacks (p : Publisher) : Publisher :=
  { p with delivered := p.delivered ++ p.subscribers.map (fun cb => (cb, p.current)) }

/-- DbService.subscribeSyncStatus: pushes the callback onto `syncCallbacks`
and immediately invokes it (and only it) with a copy of the current
`SyncInfo`. -/
def subscribeSyncStatus (p : Publisher) (cb : Nat) : Publisher :=
  { p with
    subscribers := p.subscribers ++ [cb],
    delivered := p.delivered ++ [(cb, p.current)] }

/-- The function returned by `subscribeSyncStatus`: filters the callback out
of `syncCallbacks`. -/
def unsubscribeSyncStatus (p : Publisher) (cb : Nat) : Publisher :=
  { p with subscribers := p.subscribers.filter (fun c => decide (c ≠ cb)) }

/-- The three `SyncInfo` mutations of `DbService`: `updateSyncStatus`,
`updateLastSync` and `updatePendingChangesCount`. -/
inductive SyncChange
  | setStatus (st : ConnStatus)
  | setLastSync (t : Timestamp)
  | setPendingCount (n : Nat)
deriving DecidableEq, Repr

/-- Effect of one `SyncInfo` mutation on the current value. -/
def applySyncChange (v : SyncInfo) (c : SyncChange) : SyncInfo :=
  match c with
  | .setStatus st => { v with status := st }
  | .setLastSync t => { v with lastSync := some t }
  | .setPendingCount n => { v with pendingChanges := n }

/-- One `SyncInfo` mutation as executed by `DbService`: assign the field,
then `notifySyncCallbacks()` (persisting to localStorage changes no
observable modelled here). -/
def runSyncChange (p : Publisher) (c : SyncChange) : Publisher :=
  notifySyncCallbacks { p with current := applySyncChange p.current c }

/-- A sequence of `SyncInfo` mutations. -/
def runSyncChanges (p : Publisher) (cs : List SyncChange) : Publisher :=
  cs.foldl runSyncChange p

/-- The publisher at `DbService` construction: `currentSyncInfo` is
`{ lastSync: null, status: 'offline', pendingChanges: 0 }` and no callback is
registered yet. -/
def initialPublisher : Publisher :=
  { current := { lastSync := none, status := .offline, pendingChanges := 0 },
    subscribers := [],
    delivered := [] }

end Db

/-- Connection-status side of `FirebaseService` (`firebase.service.ts`):
`actualStatus` is the current known connectivity (the last value delivered by
the `.info/connected` listener), `callbacks` the registered subscribers, and
`delivered` the log of callback invocations. -/
structure FirebaseConn where
  actualStatus : ConnStatus
  callbacks : List Nat
  delivered : List (Nat × ConnStatus)
deriving DecidableEq, Repr

/-- FirebaseService.subscribeToConnectionStatus: pushes the callback and then
invokes it with the literal initial status `callback('online')` — the string
constant, not the current known state. -/
def subscribeToConnectionStatus (f : FirebaseConn) (cb : Nat) : FirebaseConn :=
  { f with
    callbacks := f.callbacks ++ [cb],
    delivered := f.delivered ++ [(cb, .online)] }

/-- FirebaseService.notifyConnectionStatus: invoked by the `.info/connected`
listener on every transition; delivers the new status to every callback. -/
def notifyConnectionStatus (f : FirebaseConn) (st : ConnStatus) : FirebaseConn :=
  { actualStatus := st,
    callbacks := f.callbacks,
    delivered := f.delivered ++ f.callbacks.map (fun cb => (cb, st)) }

namespace Db

/-- The initial status check of `DbService.setupNetworkListeners`:
`navigator.onLine ? 'online' : 'offline'` — the current known platform state. -/
def initialStatusCheck (navigatorOnline : Bool) : ConnStatus :=
  if navigatorOnline then .online else .offline

/-- A platform connectivity transition delivered by the `window`
`online`/`offline` events. -/
inductive NetEvent
  | goOnline
  | goOffline
deriving DecidableEq, Repr

/-- The `window` event handlers of `DbService.setupNetworkListeners`: on
`online`, `updateSyncStatus('online')` then an immediate `syncWithServer()`;
on `offline`, only `updateSyncStatus('offline')`.  The second component
counts the immediate reconciliation runs the handler triggers. -/
def handleNetEvent (s : DbState) (e : NetEvent) (now : Timestamp) (pushOk : Bool) :
    DbState × Nat :=
  match e with
  | .goOnline =>
    let s1 : DbState := { s with syncInfo := { s.syncInfo with status := .online } }
    ((syncWithServer s1 now true pushOk).1, 1)
  | .goOffline =>
    ({ s with syncInfo := { s.syncInfo with status := .offline } }, 0)

end Db

namespace Idb

/-- Errors surfaced by the `idb`-based `DbService` (`src/unnamed/part_006`). -/
inductive IdbError
  | storageFailure
  | notFound
  | remoteUnavailable
deriving DecidableEq, Repr

/-- Durable state visible to the `idb`-based `DbService`: its local `classes`
object store and the remote `classes` Firebase collection.  (This service has
no sync-queue store; the claims exercised against it only involve the class
collection.) -/
structure IdbState where
  classes : List Class
  remoteClasses : List Class
deriving DecidableEq, Repr

/-- DbService.cleanDataForFirebase (`src/unnamed/part_006`): recursively drops
object keys whose value is `undefined`.  Records in this embedding are
algebraic values whose optional fields are `Option` (an absent key is `none`,
never a present-but-undefined key), so the cleaning pass is the identity. -/
def cleanDataForFirebase (l : List Class) : List Class := l

/-- The `localOnly` partition of DbService.syncClasses: local records with no
remote record of the same id. -/
def localOnly (localList remoteList : List Class) : List Class :=
  localList.filter (fun l => !(remoteList.any (fun r => decide (r.id = l.id))))

/-- The `remoteOnly` partition of DbService.syncClasses: remote records with
no local record of the same id. -/
def remoteOnly (localList remoteList : List Class) : List Class :=
  remoteList.filter (fun r => !(localList.any (fun l => decide (l.id = r.id))))

/-- The `toUpdate` partition of DbService.syncClasses: local records whose
remote record of the same id has different serialized content
(`JSON.stringify(local) !== JSON.stringify(remote)`, i.e. deep value
inequality). -/
def toUpdate (localList remoteList : List Class) : List Class :=
  localList.filter (fun l =>
    match remoteList.find? (fun r => decide (r.id = l.id)) with
    | some r => decide (l ≠ r)
    | none => false)

/-- The push condition of DbService.syncClasses: `localOnly.length > 0 ||
remoteOnly.length > 0 || toUpdate.length > 0`. -/
def syncClassesPushNeeded (localList remoteList : List Class) : Bool :=
  !(localOnly localList remoteList).isEmpty ||
  !(remoteOnly localList remoteList).isEmpty ||
  !(toUpdate localList remoteList).isEmpty

/-- FirebaseService.syncClasses (`firebase.service.ts`): `set(classesRef, ...)`
replaces the entire remote `classes` collection with the pushed records. -/
def firebaseSyncClasses (_remoteList pushed : List Class) : List Class :=
  pushed

/-- DbService.syncClasses (`src/unnamed/part_006`): reads the full local and
remote snapshots, cleans them, computes the three partitions, and — when any
partition is non-empty — pushes `cleanedLocalClasses` (the local view) to the
remote store via `FirebaseService.syncClasses`.  The local store is never
written.  Any remote failure (fetch or push, `remoteOk = false`) is caught,
logged, and rethrown to the awaiting caller.  Returns (local store after the
run, remote collection after the run). -/
def syncClasses (localList remoteList : List Class) (remoteOk : Bool) :
    Except IdbError (List Class × List Class) :=
  if remoteOk then
    let cleanedLocal := cleanDataForFirebase localList
    let cleanedRemote := cleanDataForFirebase remoteList
    if syncClassesPushNeeded cleanedLocal cleanedRemote then
      .ok (localList, firebaseSyncClasses remoteList cleanedLocal)
    else
      .ok (localList, remoteList)
  else .error .remoteUnavailable

/-- DbService.addClass (`src/unnamed/part_006`): commits the new record to the
local `classes` store in its own transaction, then `await this.syncClasses()`:
a remote failure there rejects the `addClass` promise even though the local
transaction has already committed. -/
def addClass (s : IdbState) (cls : ClassData) (newId : String) (now : Timestamp)
    (remoteOk : Bool) : Except IdbError Class × IdbState :=
  let newClass : Class := newClassOf cls newId now
  match addById s.classes newClass with
  | none => (.error .storageFailure, s)
  | some classes1 =>
    match syncClasses classes1 s.remoteClasses remoteOk with
    | .ok (localAfter, remoteAfter) =>
      (.ok newClass, { classes := localAfter, remoteClasses := remoteAfter })
    | .error e => (.error e, { s with classes := classes1 })

/-- DbService.deleteClass (`src/unnamed/part_006`): `tx.store.delete(classId)`
with no existence check (an IndexedDB delete of a missing key succeeds), then
`await this.firebaseService.deleteClass(classId)` which removes the remote
child node. -/
def deleteClass (s : IdbState) (classId : String) (remoteOk : Bool) :
    Except IdbError Unit × IdbState :=
  let committed : IdbState := { s with classes := deleteById s.classes classId }
  if remoteOk then
    (.ok (), { committed with remoteClasses := deleteById committed.remoteClasses classId })
  else (.error .remoteUnavailable, committed)

end Idb

/-! Concrete values used for counterexamples and witnesses. -/

/-- The `SyncInfo` a fresh `DbService` starts from. -/
def emptySyncInfo : SyncInfo :=
  { lastSync := none, status := .offline, pendingChanges := 0 }

/-- The empty local database. -/
def emptyDbState : Db.DbState :=
  { classes := [], events := [], attendees := [], syncQueue := [], syncInfo := emptySyncInfo }

/-- The empty state of the idb-based service. -/
def idbEmpty : Idb.IdbState :=
  { classes := [], remoteClasses := [] }

/-- The class payload of the scenario in the specification. -/
def sampleClassData : ClassData :=
  { name := "Grade 3A", grade := none, servants := ["Amira", "Noah"] }

/-- A sample event payload. -/
def sampleEventData : EventData :=
  { name := "Picnic", date := "2025-05-01", location := none, description := none,
    customFields := [] }

/-- A sample attendee payload. -/
def sampleAttendeeData : AttendeeData :=
  { eventId := "e1", classId := "c1", values := [], attended := false }

/-- A record that exists only in the remote collection. -/
def remoteOnlyClass : Class :=
  { id := "r1", name := "RemoteClass", grade := none, servants := [],
    createdAt := some 1, updatedAt := 1 }

/-- A class already present in the local store, with a known `createdAt`. -/
def storedClass : Class :=
  { id := "c1", name := "Grade 3A", grade := none, servants := ["Amira", "Noah"],
    createdAt := some 10, updatedAt := 10 }

/-- A local database holding exactly `storedClass`. -/
def storedClassState : Db.DbState :=
  { emptyDbState with classes := [storedClass] }

/-- The update payload Classes.tsx sends for `storedClass`: the
`Omit<Class, 'createdAt'>` shape, carrying no `createdAt` at runtime. -/
def storedClassUpdate : ClassUpdateData :=
  { id := "c1", name := "Grade 3B", grade := none, servants := ["Amira"], updatedAt := 10 }

/-- An attendee already present in the local store. -/
def storedAttendee : Attendee :=
  { id := "a1", eventId := "e1", classId := "c1", values := [], attended := false,
    createdAt := some 3, updatedAt := 3 }

/-- A local database holding exactly `storedAttendee`. -/
def storedAttendeeState : Db.DbState :=
  { emptyDbState with attendees := [storedAttendee] }

/-- A queue entry recording the creation of `storedClass`. -/
def storedQueueEntry : QueueEntry :=
  { opType := "addClass", data := .classData storedClass, timestamp := 10 }

/-- A local database with one pending queued change. -/
def queuedState : Db.DbState :=
  { emptyDbState with
    syncQueue := [storedQueueEntry],
    syncInfo := { emptySyncInfo with pendingChanges := 1 } }

/-- A `FirebaseService` connection model whose current known state is offline. -/
def offlineConn : FirebaseConn :=
  { actualStatus := .offline, callbacks := [], delivered := [] }

/-! ### Helper lemmas about the keyed-store primitives -/

theorem getById_key {α : Type} [KeyedRec α] {l : List α} {i : String} {a : α}
    (h : getById l i = some a) : KeyedRec.key a = i := by
  have h2 := List.find?_some h
  simpa using h2

theorem getById_mem {α : Type} [KeyedRec α] {l : List α} {i : String} {a : α}
    (h : getById l i = some a) : a ∈ l :=
  List.mem_of_find?_eq_some h

theorem putById_mem {α : Type} [KeyedRec α] (l : List α) (a : α) : a ∈ putById l a := by
  unfold putById
  split
  · next hsome =>
    rw [Option.isSome_iff_exists] at hsome
    obtain ⟨b, hb⟩ := hsome
    exact List.mem_map.mpr ⟨b, getById_mem hb, by rw [getById_key hb]; simp⟩
  · simp

/-- C1: for every successful addClass, addEvent, addAttendee, updateClass or
updateAttendeeStatus call of the `DbService` in `firebase.service.ts`, exactly
one new entry is appended to the `syncQueue` pending-operation log if and only
if the corresponding record mutation is applied to the local store (both
happen in the same storage transaction), and a failed transaction leaves both
the record collections and the log exactly as they were. -/
theorem mutation_pairs_with_sync_log (s : Db.DbState) (cd : ClassData) (ed : EventData)
    (ad : AttendeeData) (ud : ClassUpdateData) (aid : String) (att : Bool)
    (i : String) (now : Timestamp) (txOk : Bool) :
    (match Db.addClass s cd i now txOk with
     | (.ok c, s1) =>
        s1.classes = s.classes ++ [c] ∧
        s1.syncQueue = s.syncQueue ++
          [{ opType := "addClass", data := .classData c, timestamp := now }]
     | (.error _, s1) => s1.classes = s.classes ∧ s1.syncQueue = s.syncQueue) ∧
    (match Db.addEvent s ed i now txOk with
     | (.ok e, s1) =>
        s1.events = s.events ++ [e] ∧
        s1.syncQueue = s.syncQueue ++
          [{ opType := "addEvent", data := .eventData e, timestamp := now }]
     | (.error _, s1) => s1.events = s.events ∧ s1.syncQueue = s.syncQueue) ∧
    (match Db.addAttendee s ad i now txOk with
     | (.ok a, s1) =>
        s1.attendees = s.attendees ++ [a] ∧
        s1.syncQueue = s.syncQueue ++
          [{ opType := "addAttendee", data := .attendeeData a, timestamp := now }]
     | (.error _, s1) => s1.attendees = s.attendees ∧ s1.syncQueue = s.syncQueue) ∧
    (match Db.updateClass s ud now txOk with
     | (.ok c, s1) =>
        c ∈ s1.classes ∧ s1.classes = putById s.classes c ∧
        s1.syncQueue = s.syncQueue ++
          [{ opType := "updateClass", data := .classData c, timestamp := now }]
     | (.error _, s1) => s1.classes = s.classes ∧ s1.syncQueue = s.syncQueue) ∧
    (match Db.updateAttendeeStatus s aid att now txOk with
     | (.ok a, s1) =>
        a ∈ s1.attendees ∧ s1.attendees = putById s.attendees a ∧
        s1.syncQueue = s.syncQueue ++
          [{ opType := "updateAttendee", data := .attendeeData a, timestamp := now }]
     | (.error _, s1) => s1.attendees = s.attendees ∧ s1.syncQueue = s.syncQueue) := by
  refine ⟨?_, ?_, ?_, ?_, ?_⟩
  · cases txOk with
    | false => simp [Db.addClass]
    | true =>
      cases hadd : addById s.classes (newClassOf cd i now) with
      | none => simp [Db.addClass, hadd]
      | some cl1 =>
        have hval : cl1 = s.classes ++ [newClassOf cd i now] := by
          unfold addById at hadd
          split at hadd
          · exact absurd hadd (by simp)
          · exact (Option.some.injEq _ _ ▸ hadd).symm
        simp [Db.addClass, hadd, hval]
  · cases txOk with
    | false => simp [Db.addEvent]
    | true =>
      cases hadd : addById s.events (newEventOf ed i now) with
      | none => simp [Db.addEvent, hadd]
      | some ev1 =>
        have hval : ev1 = s.events ++ [newEventOf ed i now] := by
          unfold addById at hadd
          split at hadd
          · exact absurd hadd (by simp)
          · exact (Option.some.injEq _ _ ▸ hadd).symm
        simp [Db.addEvent, hadd, hval]
  · cases txOk with
    | false => simp [Db.addAttendee]
    | true =>
      cases hadd : addById s.attendees (newAttendeeOf ad i now) with
      | none => simp [Db.addAttendee, hadd]
      | some at1 =>
        have hval : at1 = s.attendees ++ [newAttendeeOf ad i now] := by
          unfold addById at hadd
          split at hadd
          · exact absurd hadd (by simp)
          · exact (Option.some.injEq _ _ ▸ hadd).symm
        simp [Db.addAttendee, hadd, hval]
  · cases hget : Db.getClass s ud.id with
    | none => simp [Db.updateClass, hget]
    | some c0 =>
      cases txOk with
      | false => simp [Db.updateClass, hget]
      | true =>
        simp only [Db.updateClass, hget]
        exact ⟨putById_mem _ _, rfl, rfl⟩
  · cases txOk with
    | false => simp [Db.updateAttendeeStatus]
    | true =>
      cases hget : getById s.attendees aid with
      | none => simp [Db.updateAttendeeStatus, hget]
      | some a0 =>
        simp only [Db.updateAttendeeStatus, hget]
        exact ⟨putById_mem _ _, rfl, rfl⟩

/-- C2 counterexample: with an empty local store and one remote-only record,
`DbService.syncClasses` (src/unnamed/part_006) detects the record in its
`remoteOnly` partition, yet the run leaves the local store empty (the record
is not pulled) and pushes the local view, which `FirebaseService.syncClasses`
installs as the whole remote collection — erasing the remote-only record.
This contradicts the claim that remoteOnly records are pulled into the local
store and survive the push. -/
theorem remoteOnly_record_is_dropped :
    Idb.remoteOnly [] [remoteOnlyClass] = [remoteOnlyClass] ∧
    Idb.syncClasses [] [remoteOnlyClass] true = .ok ([], []) := by
  exact ⟨rfl, rfl⟩

/-- C2 amended: during a reconciliation run, records present remotely but
absent locally are only used (with the other two partitions) to decide
whether a push is needed; the run never writes the local store, and when a
push happens the remote collection is replaced by the local view, so every
remoteOnly record — whose id by construction matches no local record —
disappears from the remote store instead of being pulled or preserved. -/
theorem sync_pushes_local_view_only (L R : List Class)
    (hp : Idb.syncClassesPushNeeded L R = true) :
    Idb.syncClasses L R true = .ok (L, L) ∧
    ∀ r ∈ Idb.remoteOnly L R, ∀ x ∈ L, x.id ≠ r.id := by
  constructor
  · simp [Idb.syncClasses, Idb.cleanDataForFirebase, hp, Idb.firebaseSyncClasses]
  · intro r hr x hx
    unfold Idb.remoteOnly at hr
    have hmem := List.of_mem_filter hr
    simp only [Bool.not_eq_true', List.any_eq_false, decide_eq_false_iff_not] at hmem
    intro hcontra
    exact hmem x hx (decide_eq_true hcontra)

/-- C2 witness for `sync_pushes_local_view_only`: a concrete run with an
empty local store and one remote record. -/
theorem sync_pushes_local_view_only_witness :
    Idb.syncClasses [] [remoteOnlyClass] true = .ok ([], []) ∧
    ∀ r ∈ Idb.remoteOnly [] [remoteOnlyClass], ∀ x ∈ ([] : List Class), x.id ≠ r.id :=
  sync_pushes_local_view_only [] [remoteOnlyClass] (by decide)

/-- C3: if the remote-store push of `DbService.syncWithServer` throws while
the pending queue is non-empty, the whole run is a no-op — the queue entries
all remain, `pendingChanges` is unchanged and `lastSync` is unchanged — and in
every run the queue is either left exactly as it was or (only when the push of
its full snapshot succeeded) cleared of exactly the entries that were pushed. -/
theorem push_failure_keeps_pending_log (s : Db.DbState) (now : Timestamp)
    (hq : s.syncQueue ≠ []) :
    (Db.syncWithServer s now true false).1 = s ∧
    (Db.syncWithServer s now true false).1.syncQueue = s.syncQueue ∧
    (Db.syncWithServer s now true false).1.syncInfo.pendingChanges
      = s.syncInfo.pendingChanges ∧
    (Db.syncWithServer s now true false).1.syncInfo.lastSync = s.syncInfo.lastSync ∧
    (Db.syncWithServer s now true false).2 = true ∧
    ∀ online pushOk,
      (Db.syncWithServer s now online pushOk).1.syncQueue = s.syncQueue ∨
      (pushOk = true ∧ (Db.syncWithServer s now online pushOk).2 = true ∧
        (Db.syncWithServer s now online pushOk).1.syncQueue = []) := by
  have hempty : s.syncQueue.isEmpty = false := by
    cases h : s.syncQueue with
    | nil => exact absurd h hq
    | cons a l => rfl
  refine ⟨?_, ?_, ?_, ?_, ?_, ?_⟩
  · simp [Db.syncWithServer, hempty]
  · simp [Db.syncWithServer, hempty]
  · simp [Db.syncWithServer, hempty]
  · simp [Db.syncWithServer, hempty]
  · simp [Db.syncWithServer, hempty]
  · intro online pushOk
    cases online with
    | false => left; simp [Db.syncWithServer]
    | true =>
      cases pushOk with
      | false => left; simp [Db.syncWithServer, hempty]
      | true => right; exact ⟨rfl, by simp [Db.syncWithServer, hempty],
          by simp [Db.syncWithServer, hempty]⟩

/-- C3 witness for `push_failure_keeps_pending_log`: the concrete state with
one queued change.  A failing push leaves it untouched. -/
theorem push_failure_keeps_pending_log_witness :
    (Db.syncWithServer queuedState 30 true false).1 = queuedState ∧
    (Db.syncWithServer queuedState 30 true false).1.syncQueue = queuedState.syncQueue ∧
    (Db.syncWithServer queuedState 30 true false).1.syncInfo.pendingChanges
      = queuedState.syncInfo.pendingChanges ∧
    (Db.syncWithServer queuedState 30 true false).1.syncInfo.lastSync
      = queuedState.syncInfo.lastSync ∧
    (Db.syncWithServer queuedState 30 true false).2 = true ∧
    ∀ online pushOk,
      (Db.syncWithServer queuedState 30 online pushOk).1.syncQueue
        = queuedState.syncQueue ∨
      (pushOk = true ∧ (Db.syncWithServer queuedState 30 online pushOk).2 = true ∧
        (Db.syncWithServer queuedState 30 online pushOk).1.syncQueue = []) :=
  push_failure_keeps_pending_log queuedState 30 (by decide)

/-- C4 counterexample: with a healthy local store but an unavailable remote
store, `DbService.addClass` of the idb-based service (src/unnamed/part_006)
rejects with the remote error — `syncClasses` rethrows after logging and
`addClass` awaits it — even though the new class has already been committed to
the local store.  This contradicts the claim that a remote-store failure is
never propagated to the caller of a CRUD entry point. -/
theorem addClass_rejects_on_remote_failure :
    (Idb.addClass idbEmpty sampleClassData "u1" 5 false).1
      = .error .remoteUnavailable ∧
    (Idb.addClass idbEmpty sampleClassData "u1" 5 false).2.classes
      = [newClassOf sampleClassData "u1" 5] := by
  exact ⟨rfl, rfl⟩

/-- C4 amended: in the syncWithServer-based `DbService`
(`firebase.service.ts`) a remote failure is contained — `syncWithServer`
catches every push error, the CRUD entry points invoke it without awaiting,
so the result and the committed local record of `addClass` are independent of
remote health.  In the idb-based `DbService` (src/unnamed/part_006), however,
`syncClasses` rethrows and `addClass` awaits it, so a remote failure rejects
the `addClass` promise even though the local mutation has already committed. -/
theorem remote_failure_containment_split (s : Db.DbState) (cd : ClassData)
    (i : String) (n : Timestamp) (txOk online pushOk : Bool)
    (t : Idb.IdbState) (hfresh : getById t.classes i = none) :
    (Db.addClassAndSync s cd i n txOk online pushOk).1 = (Db.addClass s cd i n txOk).1 ∧
    (Db.addClassAndSync s cd i n txOk online pushOk).2.classes
      = (Db.addClass s cd i n txOk).2.classes ∧
    (Idb.addClass t cd i n false).1 = .error .remoteUnavailable ∧
    (Idb.addClass t cd i n false).2.classes = t.classes ++ [newClassOf cd i n] := by
  have hsync : ∀ (s1 : Db.DbState),
      (Db.syncWithServer s1 n online pushOk).1.classes = s1.classes := by
    intro s1
    unfold Db.syncWithServer
    cases online <;> cases pushOk <;> cases h : s1.syncQueue.isEmpty <;> simp [h]
  have hadd : addById t.classes (newClassOf cd i n) = some (t.classes ++ [newClassOf cd i n]) := by
    unfold addById
    have : getById t.classes (KeyedRec.key (newClassOf cd i n)) = none := hfresh
    simp [this]
  refine ⟨?_, ?_, ?_, ?_⟩
  · unfold Db.addClassAndSync
    cases h : Db.addClass s cd i n txOk with
    | mk r s1 => cases r <;> simp
  · unfold Db.addClassAndSync
    cases h : Db.addClass s cd i n txOk with
    | mk r s1 => cases r <;> simp [hsync]
  · simp [Idb.addClass, hadd, Idb.syncClasses]
  · simp [Idb.addClass, hadd, Idb.syncClasses]

/-- C4 witness for `remote_failure_containment_split`: concrete states on both
sides; the queue-based service result ignores the failing push while the
idb-based service propagates it. -/
theorem remote_failure_containment_split_witness :
    (Db.addClassAndSync emptyDbState sampleClassData "u1" 5 true true false).1
      = (Db.addClass emptyDbState sampleClassData "u1" 5 true).1 ∧
    (Db.addClassAndSync emptyDbState sampleClassData "u1" 5 true true false).2.classes
      = (Db.addClass emptyDbState sampleClassData "u1" 5 true).2.classes ∧
    (Idb.addClass idbEmpty sampleClassData "u1" 5 false).1
      = .error .remoteUnavailable ∧
    (Idb.addClass idbEmpty sampleClassData "u1" 5 false).2.classes
      = idbEmpty.classes ++ [newClassOf sampleClassData "u1" 5] :=
  remote_failure_containment_split emptyDbState sampleClassData "u1" 5 true true false
    idbEmpty (by decide)

/-- C5 counterexample: `DbService.deleteClass` (src/unnamed/part_006) invoked
with an id that has no record resolves successfully — `tx.store.delete` has no
existence check and an IndexedDB delete of a missing key is a silent no-op —
instead of rejecting with an explicit error as the claim requires for every
delete* against a missing id. -/
theorem deleteClass_missing_id_succeeds :
    Idb.deleteClass idbEmpty "missing" true = (.ok (), idbEmpty) := by
  rfl

/-- C5 amended: get* against a missing id returns null, and updateClass /
updateAttendeeStatus against a missing id reject with their explicit
`not found` errors while leaving the record collections and the pending queue
unchanged; but deleteClass against a missing id resolves successfully as a
silent no-op (the local store is unchanged and no typed failure is raised). -/
theorem missing_id_surfaces_error_except_delete (s : Db.DbState) (j : String)
    (ud : ClassUpdateData) (aid : String) (att : Bool) (now : Timestamp)
    (txOk : Bool) (t : Idb.IdbState)
    (hj : ∀ c ∈ s.classes, c.id ≠ j)
    (hu : ∀ c ∈ s.classes, c.id ≠ ud.id)
    (ha : ∀ a ∈ s.attendees, a.id ≠ aid)
    (ht : ∀ c ∈ t.classes, c.id ≠ aid) :
    Db.getClass s j = none ∧
    Db.updateClass s ud now txOk = (.error .classNotFound, s) ∧
    ((Db.updateAttendeeStatus s aid att now true).1 = .error .attendeeNotFound ∧
      (Db.updateAttendeeStatus s aid att now true).2.attendees = s.attendees ∧
      (Db.updateAttendeeStatus s aid att now true).2.classes = s.classes ∧
      (Db.updateAttendeeStatus s aid att now true).2.events = s.events ∧
      (Db.updateAttendeeStatus s aid att now true).2.syncQueue = s.syncQueue) ∧
    ((Idb.deleteClass t aid true).1 = .ok () ∧
      (Idb.deleteClass t aid true).2.classes = t.classes) := by
  have hfind : ∀ (l : List Class) (k : String), (∀ c ∈ l, c.id ≠ k) →
      getById l k = none := by
    intro l k hl
    unfold getById
    rw [List.find?_eq_none]
    intro x hx
    exact fun hk => hl x hx (of_decide_eq_true hk)
  have hfindA : getById s.attendees aid = none := by
    unfold getById
    rw [List.find?_eq_none]
    intro x hx
    exact fun hk => ha x hx (of_decide_eq_true hk)
  refine ⟨?_, ?_, ?_, ?_⟩
  · exact hfind s.classes j hj
  · unfold Db.updateClass
    rw [show Db.getClass s ud.id = none from hfind s.classes ud.id hu]
  · refine ⟨?_, ?_, ?_, ?_, ?_⟩ <;> simp [Db.updateAttendeeStatus, hfindA]
  · constructor
    · rfl
    · show deleteById t.classes aid = t.classes
      unfold deleteById
      rw [List.filter_eq_self]
      intro x hx
      exact decide_eq_true (fun hk => ht x hx hk)

/-- C5 witness for `missing_id_surfaces_error_except_delete`: the empty local
stores and the id of `storedClassUpdate`. -/
theorem missing_id_surfaces_error_except_delete_witness :
    Db.getClass emptyDbState "ghost" = none ∧
    Db.updateClass emptyDbState storedClassUpdate 20 true
      = (.error .classNotFound, emptyDbState) ∧
    ((Db.updateAttendeeStatus emptyDbState "ghost2" true 20 true).1
        = .error .attendeeNotFound ∧
      (Db.updateAttendeeStatus emptyDbState "ghost2" true 20 true).2.attendees
        = emptyDbState.attendees ∧
      (Db.updateAttendeeStatus emptyDbState "ghost2" true 20 true).2.classes
        = emptyDbState.classes ∧
      (Db.updateAttendeeStatus emptyDbState "ghost2" true 20 true).2.events
        = emptyDbState.events ∧
      (Db.updateAttendeeStatus emptyDbState "ghost2" true 20 true).2.syncQueue
        = emptyDbState.syncQueue) ∧
    ((Idb.deleteClass idbEmpty "ghost2" true).1 = .ok () ∧
      (Idb.deleteClass idbEmpty "ghost2" true).2.classes = idbEmpty.classes) :=
  missing_id_surfaces_error_except_delete emptyDbState "ghost" storedClassUpdate
    "ghost2" true 20 true idbEmpty (by decide) (by decide) (by decide) (by decide)

theorem runSyncChanges_subscribers (p : Db.Publisher) (cs : List Db.SyncChange) :
    (Db.runSyncChanges p cs).subscribers = p.subscribers := by
  induction cs generalizing p with
  | nil => rfl
  | cons c cs ih =>
    show (Db.runSyncChanges (Db.runSyncChange p c) cs).subscribers = _
    rw [ih]
    rfl

theorem runSyncChanges_current (p : Db.Publisher) (cs : List Db.SyncChange) :
    (Db.runSyncChanges p cs).current = cs.foldl Db.applySyncChange p.current := by
  induction cs generalizing p with
  | nil => rfl
  | cons c cs ih =>
    show (Db.runSyncChanges (Db.runSyncChange p c) cs).current = _
    rw [ih]
    rfl

/-- C6: after any sequence of `SyncInfo` changes, `subscribeSyncStatus`
synchronously invokes the new callback exactly once, with exactly the latest
`SyncInfo` value (the fold of all prior changes over the initial value), and
before any further change; the returned function unsubscribes the callback,
after which further changes deliver nothing to anyone (the callback list is
empty again). -/
theorem subscribeSyncStatus_replays_latest (cs : List Db.SyncChange) (cb : Nat) :
    (Db.subscribeSyncStatus (Db.runSyncChanges Db.initialPublisher cs) cb).delivered
      = (Db.runSyncChanges Db.initialPublisher cs).delivered
        ++ [(cb, cs.foldl Db.applySyncChange Db.initialPublisher.current)] ∧
    (Db.unsubscribeSyncStatus
        (Db.subscribeSyncStatus (Db.runSyncChanges Db.initialPublisher cs) cb) cb).subscribers
      = (Db.runSyncChanges Db.initialPublisher cs).subscribers ∧
    ∀ c, (Db.runSyncChange (Db.unsubscribeSyncStatus
          (Db.subscribeSyncStatus (Db.runSyncChanges Db.initialPublisher cs) cb) cb) c).delivered
      = (Db.unsubscribeSyncStatus
          (Db.subscribeSyncStatus (Db.runSyncChanges Db.initialPublisher cs) cb) cb).delivered := by
  have hsubs : (Db.runSyncChanges Db.initialPublisher cs).subscribers = [] :=
    runSyncChanges_subscribers _ _
  refine ⟨?_, ?_, ?_⟩
  · simp [Db.subscribeSyncStatus, runSyncChanges_current]
  · simp [Db.unsubscribeSyncStatus, Db.subscribeSyncStatus, hsubs]
  · intro c
    simp [Db.runSyncChange, Db.notifySyncCallbacks, Db.unsubscribeSyncStatus,
      Db.subscribeSyncStatus, hsubs]

theorem find?_id_self (L : List Class) (hL : (L.map Class.id).Nodup)
    (l : Class) (hl : l ∈ L) :
    L.find? (fun r => decide (r.id = l.id)) = some l := by
  induction L with
  | nil => simp at hl
  | cons a as ih =>
    rw [List.map_cons, List.nodup_cons] at hL
    obtain ⟨hna, hnd⟩ := hL
    rcases List.mem_cons.mp hl with rfl | hmem
    · exact List.find?_cons_of_pos _ (by simp)
    · have hne : a.id ≠ l.id := by
        intro h
        exact hna (h ▸ List.mem_map_of_mem Class.id hmem)
      rw [List.find?_cons_of_neg _ (by simp [hne])]
      exact ih hnd hmem

theorem syncClassesPushNeeded_self (L : List Class) (hL : (L.map Class.id).Nodup) :
    Idb.syncClassesPushNeeded L L = false := by
  have h1 : Idb.localOnly L L = [] := by
    unfold Idb.localOnly
    rw [List.filter_eq_nil_iff]
    intro l hl
    simp only [Bool.not_eq_true', Bool.not_eq_false, List.any_eq_true]
    exact ⟨l, hl, by simp⟩
  have h2 : Idb.remoteOnly L L = [] := by
    unfold Idb.remoteOnly
    rw [List.filter_eq_nil_iff]
    intro l hl
    simp only [Bool.not_eq_true', Bool.not_eq_false, List.any_eq_true]
    exact ⟨l, hl, by simp⟩
  have h3 : Idb.toUpdate L L = [] := by
    unfold Idb.toUpdate
    rw [List.filter_eq_nil_iff]
    intro l hl
    rw [find?_id_self L hL l hl]
    simp
  simp [Idb.syncClassesPushNeeded, h1, h2, h3]

/-- C7: running the reconciler twice in a row with no intervening local
mutations and a healthy remote store performs no push on the second run.  In
the diff-based reconciler (src/unnamed/part_006), after one successful run
the three partitions of local vs. the new remote are all empty, so the second
run pushes nothing and leaves both stores as they were.  In the queue-based
reconciler (`firebase.service.ts`), the first successful run empties the
queue, so the second run issues no push, leaves all collections and the queue
unchanged, and still advances `lastSync`. -/
theorem second_reconcile_run_is_noop (L R : List Class)
    (hL : (L.map Class.id).Nodup) :
    (∃ R1, Idb.syncClasses L R true = .ok (L, R1) ∧
      Idb.syncClassesPushNeeded L R1 = false ∧
      Idb.syncClasses L R1 true = .ok (L, R1)) ∧
    ∀ (s : Db.DbState) (n1 n2 : Timestamp),
      (Db.syncWithServer (Db.syncWithServer s n1 true true).1 n2 true true).2 = false ∧
      (Db.syncWithServer (Db.syncWithServer s n1 true true).1 n2 true true).1.classes
        = (Db.syncWithServer s n1 true true).1.classes ∧
      (Db.syncWithServer (Db.syncWithServer s n1 true true).1 n2 true true).1.events
        = (Db.syncWithServer s n1 true true).1.events ∧
      (Db.syncWithServer (Db.syncWithServer s n1 true true).1 n2 true true).1.attendees
        = (Db.syncWithServer s n1 true true).1.attendees ∧
      (Db.syncWithServer (Db.syncWithServer s n1 true true).1 n2 true true).1.syncQueue
        = (Db.syncWithServer s n1 true true).1.syncQueue ∧
      (Db.syncWithServer (Db.syncWithServer s n1 true true).1 n2 true true).1.syncInfo.lastSync
        = some n2 := by
  constructor
  · cases hp : Idb.syncClassesPushNeeded L R with
    | true =>
      refine ⟨L, ?_, syncClassesPushNeeded_self L hL, ?_⟩
      · simp [Idb.syncClasses, Idb.cleanDataForFirebase, hp, Idb.firebaseSyncClasses]
      · simp [Idb.syncClasses, Idb.cleanDataForFirebase,
          syncClassesPushNeeded_self L hL]
    | false =>
      refine ⟨R, ?_, hp, ?_⟩ <;>
        simp [Idb.syncClasses, Idb.cleanDataForFirebase, hp]
  · intro s n1 n2
    have hq : (Db.syncWithServer s n1 true true).1.syncQueue = [] := by
      unfold Db.syncWithServer
      cases h : s.syncQueue.isEmpty with
      | true =>
        simp only [h]
        simpa [List.isEmpty_iff] using h
      | false => simp [h]
    generalize hgen : (Db.syncWithServer s n1 true true).1 = s1 at hq ⊢
    refine ⟨?_, ?_, ?_, ?_, ?_, ?_⟩ <;>
      simp [Db.syncWithServer, hq]

/-- C7 witness for `second_reconcile_run_is_noop`: the singleton local store
`[storedClass]` against an empty remote. -/
theorem second_reconcile_run_is_noop_witness :
    ((∃ R1, Idb.syncClasses [storedClass] [] true = .ok ([storedClass], R1) ∧
      Idb.syncClassesPushNeeded [storedClass] R1 = false ∧
      Idb.syncClasses [storedClass] R1 true = .ok ([storedClass], R1)) ∧
    ∀ (s : Db.DbState) (n1 n2 : Timestamp),
      (Db.syncWithServer (Db.syncWithServer s n1 true true).1 n2 true true).2 = false ∧
      (Db.syncWithServer (Db.syncWithServer s n1 true true).1 n2 true true).1.classes
        = (Db.syncWithServer s n1 true true).1.classes ∧
      (Db.syncWithServer (Db.syncWithServer s n1 true true).1 n2 true true).1.events
        = (Db.syncWithServer s n1 true true).1.events ∧
      (Db.syncWithServer (Db.syncWithServer s n1 true true).1 n2 true true).1.attendees
        = (Db.syncWithServer s n1 true true).1.attendees ∧
      (Db.syncWithServer (Db.syncWithServer s n1 true true).1 n2 true true).1.syncQueue
        = (Db.syncWithServer s n1 true true).1.syncQueue ∧
      (Db.syncWithServer (Db.syncWithServer s n1 true true).1 n2 true true).1.syncInfo.lastSync
        = some n2) :=
  second_reconcile_run_is_noop [storedClass] [] (by decide)

/-- C8: evaluation of `DbService.updateClass` (`firebase.service.ts`) at the
failing input.  The local store holds `storedClass` with `createdAt = 10`;
Classes.tsx invokes `updateClass` with the `Omit<Class, 'createdAt'>` payload,
and the code stores `{ ...classData, updatedAt: now }` — a record whose
`createdAt` key is absent (`none`), destroying the creation timestamp that the
claim (and the variable's own `Class` type annotation, and the idb-based
`updateClass`, which reads the existing record back precisely to preserve
`createdAt`) requires to stay unchanged.  The id is preserved and `updatedAt`
is set to the write time; only the `createdAt` invariant is broken. -/
theorem updateClass_drops_createdAt :
    storedClass.createdAt = some 10 ∧
    (Db.updateClass storedClassState storedClassUpdate 20 true).1
      = .ok (updatedClassOf storedClassUpdate 20) ∧
    (updatedClassOf storedClassUpdate 20).createdAt = none ∧
    (updatedClassOf storedClassUpdate 20).id = storedClass.id ∧
    (updatedClassOf storedClassUpdate 20).updatedAt = 20 ∧
    (Db.updateClass storedClassState storedClassUpdate 20 true).2.classes.map
      Class.createdAt = [none] := by
  refine ⟨rfl, rfl, rfl, rfl, rfl, rfl⟩

/-- C9 counterexample: with the current known connectivity state being
offline, `FirebaseService.subscribeToConnectionStatus` still invokes the new
callback with the hard-coded constant `'online'` — not the current state —
contradicting the claim that the initial notification on each new
subscription carries the current known connectivity state. -/
theorem subscription_initial_status_is_constant :
    offlineConn.actualStatus = .offline ∧
    (subscribeToConnectionStatus offlineConn 7).delivered = [(7, .online)] ∧
    ConnStatus.online ≠ ConnStatus.offline := by
  refine ⟨rfl, rfl, by decide⟩

/-- C9 amended: the startup check of `DbService.setupNetworkListeners` does
use the current known platform state (`navigator.onLine`), every subsequent
online/offline transition updates the published status, and a transition to
online triggers exactly one immediate reconciliation run (which, on success,
drains the queue) while a transition to offline triggers none; but the
initial notification `FirebaseService.subscribeToConnectionStatus` sends on
each new subscription is the constant `'online'`, whatever the current known
state is. -/
theorem network_listener_behavior :
    (Db.initialStatusCheck true = .online ∧ Db.initialStatusCheck false = .offline) ∧
    (∀ (s : Db.DbState) (now : Timestamp) (pushOk : Bool),
      (Db.handleNetEvent s .goOnline now pushOk).1.syncInfo.status = .online ∧
      (Db.handleNetEvent s .goOnline now pushOk).2 = 1 ∧
      (Db.handleNetEvent s .goOnline now true).1.syncQueue = [] ∧
      (Db.handleNetEvent s .goOffline now pushOk).1.syncInfo.status = .offline ∧
      (Db.handleNetEvent s .goOffline now pushOk).2 = 0) ∧
    (∀ (f : FirebaseConn) (st : ConnStatus),
      (notifyConnectionStatus f st).delivered
        = f.delivered ++ f.callbacks.map (fun cb => (cb, st))) ∧
    (∀ (f : FirebaseConn) (cb : Nat),
      (subscribeToConnectionStatus f cb).delivered = f.delivered ++ [(cb, .online)]) := by
  refine ⟨⟨rfl, rfl⟩, ?_, fun f st => rfl, fun f cb => rfl⟩
  intro s now pushOk
  refine ⟨?_, rfl, ?_, rfl, rfl⟩
  · unfold Db.handleNetEvent Db.syncWithServer
    cases h : ({ s with syncInfo := { s.syncInfo with status := .online } } :
        Db.DbState).syncQueue.isEmpty <;> cases pushOk <;> simp [h]
  · unfold Db.handleNetEvent Db.syncWithServer
    cases h : ({ s with syncInfo := { s.syncInfo with status := .online } } :
        Db.DbState).syncQueue.isEmpty with
    | true =>
      simp only [h, if_true]
      simpa [List.isEmpty_iff] using h
    | false => simp [h]

/-- C10: for an existing attendee, a successful `updateAttendeeStatus` call
changes only the `attended` flag and the `updatedAt` timestamp of that
attendee; its id, eventId, classId, values and createdAt are unchanged, every
record with a different id is still present unchanged, the attendees
collection is exactly the old one with the record of that id replaced, and
the classes and events collections are untouched. -/
theorem updateAttendeeStatus_is_frame_local (s : Db.DbState) (i : String)
    (att : Bool) (now : Timestamp) (a : Attendee)
    (ha : Db.getAttendee s i = some a) :
    ∃ a1, (Db.updateAttendeeStatus s i att now true).1 = .ok a1 ∧
      a1.id = a.id ∧ a1.eventId = a.eventId ∧ a1.classId = a.classId ∧
      a1.values = a.values ∧ a1.createdAt = a.createdAt ∧
      a1.attended = att ∧ a1.updatedAt = now ∧
      (Db.updateAttendeeStatus s i att now true).2.classes = s.classes ∧
      (Db.updateAttendeeStatus s i att now true).2.events = s.events ∧
      (Db.updateAttendeeStatus s i att now true).2.attendees
        = s.attendees.map (fun x => if x.id = i then a1 else x) ∧
      ∀ x ∈ s.attendees, x.id ≠ i →
        x ∈ (Db.updateAttendeeStatus s i att now true).2.attendees := by
  have hkey : a.id = i := getById_key ha
  refine ⟨{ a with attended := att, updatedAt := now }, ?_,
    rfl, rfl, rfl, rfl, rfl, rfl, rfl, ?_, ?_, ?_, ?_⟩
  · simp [Db.updateAttendeeStatus, show getById s.attendees i = some a from ha]
  · simp [Db.updateAttendeeStatus, show getById s.attendees i = some a from ha]
  · simp [Db.updateAttendeeStatus, show getById s.attendees i = some a from ha]
  · simp only [Db.updateAttendeeStatus, show getById s.attendees i = some a from ha]
    show putById s.attendees _ = _
    unfold putById
    have : getById s.attendees
        (KeyedRec.key ({ a with attended := att, updatedAt := now } : Attendee))
        = some a := by
      show getById s.attendees a.id = some a
      rw [hkey]
      exact ha
    rw [if_pos (by rw [this]; rfl)]
    show s.attendees.map _ = s.attendees.map _
    apply List.map_congr_left
    intro x hx
    show (if x.id = a.id then _ else x) = (if x.id = i then _ else x)
    rw [hkey]
  · intro x hx hne
    simp only [Db.updateAttendeeStatus, show getById s.attendees i = some a from ha]
    show x ∈ putById s.attendees _
    unfold putById
    have hsome : getById s.attendees
        (KeyedRec.key ({ a with attended := att, updatedAt := now } : Attendee))
        = some a := by
      show getById s.attendees a.id = some a
      rw [hkey]
      exact ha
    rw [if_pos (by rw [hsome]; rfl)]
    refine List.mem_map.mpr ⟨x, hx, ?_⟩
    show (if KeyedRec.key x = _ then _ else x) = x
    rw [if_neg]
    show ¬ x.id = a.id
    rw [hkey]
    exact hne

/-- C10 witness for `updateAttendeeStatus_is_frame_local`: the concrete store
holding `storedAttendee`. -/
theorem updateAttendeeStatus_is_frame_local_witness :
    ∃ a1, (Db.updateAttendeeStatus storedAttendeeState "a1" true 20 true).1 = .ok a1 ∧
      a1.id = storedAttendee.id ∧ a1.eventId = storedAttendee.eventId ∧
      a1.classId = storedAttendee.classId ∧
      a1.values = storedAttendee.values ∧ a1.createdAt = storedAttendee.createdAt ∧
      a1.attended = true ∧ a1.updatedAt = 20 ∧
      (Db.updateAttendeeStatus storedAttendeeState "a1" true 20 true).2.classes
        = storedAttendeeState.classes ∧
      (Db.updateAttendeeStatus storedAttendeeState "a1" true 20 true).2.events
        = storedAttendeeState.events ∧
      (Db.updateAttendeeStatus storedAttendeeState "a1" true 20 true).2.attendees
        = storedAttendeeState.attendees.map (fun x => if x.id = "a1" then a1 else x) ∧
      ∀ x ∈ storedAttendeeState.attendees, x.id ≠ "a1" →
        x ∈ (Db.updateAttendeeStatus storedAttendeeState "a1" true 20 true).2.attendees :=
  updateAttendeeStatus_is_frame_local storedAttendeeState "a1" true 20 storedAttendee
    (by decide)

end Attendify
